import Mathlib

/-!
Shallow embedding of the index-build orchestration workflow of
terraform-provider-capellaextras: the `Invoke` action (internal/actions),
the index API helpers (api/indexes/indexes.go) and the relevant parts of
the HTTP client (api/client).  Remote calls are modelled by an explicit
environment `Env`; the workflow produces an ordered trace of events
(status queries, progress messages, build calls) together with either a
fatal diagnostic (title, detail) or the list of indexes submitted for
building.
-/

/-- Request parameters of `GetIndexBuildStatus` (indexes.go, `IndexBuildStatusRequest`). -/
structure IndexBuildStatusRequest where
  OrganizationId : String
  ProjectId : String
  ClusterId : String
  Bucket : String
  IndexName : String
  Scope : String
  Collection : String
deriving DecidableEq

/-- Request parameters of `BuildDeferredIndexes` (indexes.go, `IndexBuildRequest`). -/
structure IndexBuildRequest where
  OrganizationId : String
  ProjectId : String
  ClusterId : String
  Bucket : String
  IndexNames : List String
  Scope : String
  Collection : String
deriving DecidableEq

/-- Query parameters sent by `GetIndexBuildStatus` (indexes.go): the
`params` map with keys bucket, scope and collection. -/
def statusQueryParams (req : IndexBuildStatusRequest) : List (String × String) :=
  [("bucket", req.Bucket), ("scope", req.Scope), ("collection", req.Collection)]

/-- The N1QL statement generated by `BuildDeferredIndexes` (indexes.go):
`fmt.Sprintf("BUILD INDEX ON \x60%s\x60.\x60%s\x60.\x60%s\x60(%s)", req.Bucket,
req.Scope, req.Collection, strings.Join(req.IndexNames, ", "))`. -/
def buildStatement (req : IndexBuildRequest) : String :=
  "BUILD INDEX ON `" ++ req.Bucket ++ "`.`" ++ req.Scope ++ "`.`" ++
    req.Collection ++ "`(" ++ String.intercalate ", " req.IndexNames ++ ")"

/-- The action configuration data (`BuildIndexActionModel` in the action file).
Optional terraform attributes (scope, collection) are `Option String`:
`none` models a null `types.String`. -/
structure BuildIndexActionModel where
  OrganizationId : String
  ProjectId : String
  ClusterId : String
  BucketName : String
  IndexNames : List String
  ScopeName : Option String
  CollectionName : Option String
deriving DecidableEq

/-- Observable events of one `Invoke` run: each status query (with a per-index
poll counter: 0 for the initial query, 1, 2, ... for re-polls inside the
scheduled-creation wait), each `SendProgress` message, and each
`BuildDeferredIndexes` call. -/
inductive Event where
  | getStatusCall : IndexBuildStatusRequest → Nat → Event
  | progress : String → Event
  | buildCall : IndexBuildRequest → Event
deriving DecidableEq

/-- The remote service, as seen through the client: the status returned for
the k-th query of a given request, and the outcome of a build call.
`Except.error` models a failed HTTP call (transport or remote error). -/
structure Env where
  statusOf : IndexBuildStatusRequest → Nat → Except String String
  buildResult : IndexBuildRequest → Except String (Option String)

/-- The scope actually used by `Invoke`: `"_default"` when the attribute is
null, the supplied value otherwise. -/
def effectiveScope (data : BuildIndexActionModel) : String :=
  match data.ScopeName with
  | none => "_default"
  | some s => s

/-- The collection actually used by `Invoke`: `"_default"` when the attribute
is null, the supplied value otherwise. -/
def effectiveCollection (data : BuildIndexActionModel) : String :=
  match data.CollectionName with
  | none => "_default"
  | some c => c

/-- The `IndexBuildStatusRequest` built inside the loop of `Invoke` for one
index name. -/
def mkStatusReq (data : BuildIndexActionModel) (scope collection indexName : String) :
    IndexBuildStatusRequest :=
  { OrganizationId := data.OrganizationId
    ProjectId := data.ProjectId
    ClusterId := data.ClusterId
    Bucket := data.BucketName
    IndexName := indexName
    Scope := scope
    Collection := collection }

/-- The `IndexBuildRequest` built by `Invoke` for the final batched build call. -/
def mkBuildReq (data : BuildIndexActionModel) (scope collection : String)
    (names : List String) : IndexBuildRequest :=
  { OrganizationId := data.OrganizationId
    ProjectId := data.ProjectId
    ClusterId := data.ClusterId
    Bucket := data.BucketName
    Collection := collection
    Scope := scope
    IndexNames := names }

/-- Modelled from the spec: `WaitForScheduledIndexCreation` is called by the
workflow but its definition is not among the provided sources.  Per the spec
it is "a blocking wait operation that re-polls status until it leaves the
scheduled state" and "must eventually return a terminal status or an error";
we model it as a bounded re-poll loop (poll numbers `k`, `k+1`, ...) that
returns the first status different from "Scheduled for Creation", the error
of a failed query, or a timeout error when the bound is exhausted. -/
def waitForScheduledIndexCreation (env : Env) (req : IndexBuildStatusRequest) :
    Nat → Nat → List Event × Except String String
  | _, 0 => ([], .error "timed out waiting for index to leave Scheduled for Creation")
  | k, fuel + 1 =>
    match env.statusOf req k with
    | .error e => ([.getStatusCall req k], .error e)
    | .ok st =>
      if st = "Scheduled for Creation" then
        let w := waitForScheduledIndexCreation env req (k + 1) fuel
        (.getStatusCall req k :: w.1, w.2)
      else ([.getStatusCall req k], .ok st)

/-- One iteration of the loop in `Invoke`: the initial status query, the
abort diagnostics on query failure, the per-index progress message, and the
scheduled-creation wait.  Returns the trace of this iteration and either the
fatal diagnostic (title, detail) or the final status used for the batch
decision. -/
def processOne (env : Env) (fuel : Nat) (req : IndexBuildStatusRequest) :
    List Event × Except (String × String) String :=
  match env.statusOf req 0 with
  | .error e =>
    ([.getStatusCall req 0],
     .error ("Get Index Build Status Failed",
       "Cannot get index build status for index " ++ req.IndexName ++
         ".  Error: " ++ e ++ "\n"))
  | .ok st =>
    let evs : List Event :=
      [.getStatusCall req 0,
       .progress ("Index: " ++ req.IndexName ++ ", Status: " ++ st)]
    if st = "Scheduled for Creation" then
      let w := waitForScheduledIndexCreation env req 1 fuel
      match w.2 with
      | .error e =>
        (evs ++ w.1,
         .error ("Wait for Scheduled Index Creation Failed",
           "Cannot wait for scheduled index creation for index " ++ req.IndexName ++
             ".  Error: " ++ e ++ "\n"))
      | .ok st2 => (evs ++ w.1, .ok st2)
    else (evs, .ok st)

/-- The loop of `Invoke` over the requested index names, accumulating the
build batch (`buildIndexes` in the source): an index is appended exactly when
its final status is "Created". -/
def runIndexes (env : Env) (fuel : Nat) (data : BuildIndexActionModel)
    (scope collection : String) :
    List String → List Event × Except (String × String) (List String)
  | [] => ([], .ok [])
  | indexName :: rest =>
    let p := processOne env fuel (mkStatusReq data scope collection indexName)
    match p.2 with
    | .error e => (p.1, .error e)
    | .ok st =>
      let r := runIndexes env fuel data scope collection rest
      match r.2 with
      | .error e => (p.1 ++ r.1, .error e)
      | .ok batch =>
        (p.1 ++ r.1, .ok (if st = "Created" then indexName :: batch else batch))

/-- Rendering of a Go `[]string` by the `%v` verb, as used in the
"The following indexes need built" progress message. -/
def goSliceFormat (xs : List String) : String :=
  "[" ++ String.intercalate " " xs ++ "]"

/-- The `Invoke` method of the build-index action: defaults scope and
collection, loops over the requested indexes, and either reports a fatal
diagnostic or issues the single batched build call.  The second component is
the workflow result: the fatal diagnostic, or on success the list of indexes
submitted for building (empty when nothing needed building). -/
def Invoke (env : Env) (fuel : Nat) (data : BuildIndexActionModel) :
    List Event × Except (String × String) (List String) :=
  let scope := effectiveScope data
  let collection := effectiveCollection data
  let r := runIndexes env fuel data scope collection data.IndexNames
  match r.2 with
  | .error e => (r.1, .error e)
  | .ok batch =>
    match batch with
    | [] => (r.1 ++ [.progress "No indexes need built"], .ok [])
    | _ :: _ =>
      let breq := mkBuildReq data scope collection batch
      let evs2 := r.1 ++
        [.progress ("The following indexes need built: " ++ goSliceFormat batch),
         .buildCall breq]
      match env.buildResult breq with
      | .error e =>
        (evs2, .error ("Build Deferred Indexes Failed",
          "Cannot build deferred indexes.  Error: " ++ e ++ "\n"))
      | .ok _ =>
        (evs2 ++
          [.progress "finished action invocation, Indexes will be built in the background."],
         .ok batch)

/-- The build calls contained in a trace, in order. -/
def buildCalls (evs : List Event) : List IndexBuildRequest :=
  evs.filterMap fun ev =>
    match ev with
    | .buildCall breq => some breq
    | _ => none

/-- The error payload decoded by the client on non-2xx responses
(`apiError` in the client file; the `detail` field is never consulted by
`Error()` and is omitted). -/
structure ApiError where
  Code : String
  Message : String
deriving DecidableEq

/-- The `Error()` method of `apiError`. -/
def ApiError.Error (e : ApiError) : String :=
  if e.Code = "" ∧ e.Message = "" then "capella api error"
  else if e.Code = "" then e.Message
  else if e.Message = "" then e.Code
  else e.Code ++ ": " ++ e.Message

/-- The error outcome of `Client.Do` as a function of the response status
code, the result of attempting to decode the body as an `apiError`
(`some` when `json.Unmarshal` succeeds) and the raw body: `none` models a
nil error (2xx), `some msg` a non-nil error with message `msg`. -/
def doErrorOutcome (statusCode : Nat) (decoded : Option ApiError) (body : String) :
    Option String :=
  if statusCode < 200 ∨ 300 ≤ statusCode then
    match decoded with
    | some ae =>
      if ae.Code ≠ "" ∨ ae.Message ≠ "" then
        some (ae.Error ++ " (status " ++ toString statusCode ++ ")")
      else
        some ("capella api request failed: status " ++ toString statusCode ++
          ", body: " ++ body)
    | none =>
      some ("capella api request failed: status " ++ toString statusCode ++
        ", body: " ++ body)
  else none

/-- Bearer-token authenticator (`BearerTokenAuth` in the client file). -/
structure BearerTokenAuth where
  Token : String
deriving DecidableEq

/-- Model of `http.Header.Set`: replace any existing values for the key and
add the new pair. -/
def headerSet (hs : List (String × String)) (k v : String) : List (String × String) :=
  hs.filter (fun p => p.1 != k) ++ [(k, v)]

/-- Model of `http.Header.Get`: the first value recorded for the key. -/
def headerGet (hs : List (String × String)) (k : String) : Option String :=
  (hs.find? fun p => p.1 == k).map fun p => p.2

/-- The `Apply` method of `BearerTokenAuth`: a no-op for the empty token,
otherwise sets the Authorization header; never returns an error. -/
def BearerTokenAuth.Apply (a : BearerTokenAuth) (headers : List (String × String)) :
    Except String (List (String × String)) :=
  if a.Token = "" then .ok headers
  else .ok (headerSet headers "Authorization" ("Bearer " ++ a.Token))

/-! Concrete environments and action data used to evaluate the theorems on
closed inputs. -/

/-- A remote on which every index reports "Created" immediately. -/
def envCreated : Env :=
  { statusOf := fun _ _ => .ok "Created"
    buildResult := fun _ => .ok none }

/-- A remote on which every index reports the scheduled state on the first
query and "Created" on every re-poll. -/
def envSched : Env :=
  { statusOf := fun _ k => if k = 0 then .ok "Scheduled for Creation" else .ok "Created"
    buildResult := fun _ => .ok none }

/-- A remote on which every index reports "Building". -/
def envBuilding : Env :=
  { statusOf := fun _ _ => .ok "Building"
    buildResult := fun _ => .ok none }

/-- A remote on which every index reports the lowercase string "created". -/
def envLower : Env :=
  { statusOf := fun _ _ => .ok "created"
    buildResult := fun _ => .ok none }

/-- A remote on which every call fails. -/
def envNever : Env :=
  { statusOf := fun _ _ => .error "transport error"
    buildResult := fun _ => .error "transport error" }

/-- A remote on which the status query for the index named "bad" fails and
every other index reports "Building". -/
def envFailBad : Env :=
  { statusOf := fun req _ => if req.IndexName = "bad" then .error "boom" else .ok "Building"
    buildResult := fun _ => .ok none }

/-- Concrete action data requesting two indexes, scope and collection unset. -/
def dataTwo : BuildIndexActionModel :=
  { OrganizationId := "org"
    ProjectId := "proj"
    ClusterId := "cluster"
    BucketName := "bucket"
    IndexNames := ["idx1", "idx2"]
    ScopeName := none
    CollectionName := none }

/-- Concrete action data with an empty index-name list. -/
def dataEmptyNames : BuildIndexActionModel :=
  { OrganizationId := "org"
    ProjectId := "proj"
    ClusterId := "cluster"
    BucketName := "bucket"
    IndexNames := []
    ScopeName := none
    CollectionName := none }

/-- Concrete action data requesting three indexes, the middle one named
"bad". -/
def dataThree : BuildIndexActionModel :=
  { OrganizationId := "org"
    ProjectId := "proj"
    ClusterId := "cluster"
    BucketName := "bucket"
    IndexNames := ["good", "bad", "later"]
    ScopeName := none
    CollectionName := none }

/-- Concrete action data with explicitly empty-string scope and collection. -/
def dataPassthrough : BuildIndexActionModel :=
  { OrganizationId := "org"
    ProjectId := "proj"
    ClusterId := "cluster"
    BucketName := "bucket"
    IndexNames := ["idx1"]
    ScopeName := some ""
    CollectionName := some "" }

/-- Concrete action data requesting a single index, scope and collection
unset. -/
def dataSingle : BuildIndexActionModel :=
  { OrganizationId := "org"
    ProjectId := "proj"
    ClusterId := "cluster"
    BucketName := "bucket"
    IndexNames := ["idx1"]
    ScopeName := none
    CollectionName := none }

/-! Generic trace lemmas -/

/-- Every event emitted by the scheduled-creation wait is a status query for
the same request. -/
theorem waitFor_events (env : Env) (req : IndexBuildStatusRequest) :
    ∀ fuel k ev, ev ∈ (waitForScheduledIndexCreation env req k fuel).1 →
      ∃ j, ev = Event.getStatusCall req j := by
  intro fuel
  induction fuel with
  | zero =>
    intro k ev h
    simp [waitForScheduledIndexCreation] at h
  | succ n ih =>
    intro k ev h
    unfold waitForScheduledIndexCreation at h
    cases hs : env.statusOf req k with
    | error e =>
      rw [hs] at h
      simp only [] at h
      simp at h
      exact ⟨k, h⟩
    | ok st =>
      rw [hs] at h
      simp only [] at h
      by_cases hsched : st = "Scheduled for Creation"
      · rw [if_pos hsched] at h
        simp only [List.mem_cons] at h
        rcases h with h | h
        · exact ⟨k, h⟩
        · exact ih (k + 1) ev h
      · rw [if_neg hsched] at h
        simp at h
        exact ⟨k, h⟩

/-- Every event emitted by one loop iteration is a status query for the same
request or a progress message. -/
theorem processOne_events (env : Env) (fuel : Nat) (req : IndexBuildStatusRequest)
    (ev : Event) (h : ev ∈ (processOne env fuel req).1) :
    (∃ j, ev = Event.getStatusCall req j) ∨ ∃ m, ev = Event.progress m := by
  unfold processOne at h
  cases hs : env.statusOf req 0 with
  | error e =>
    rw [hs] at h
    simp only [] at h
    simp at h
    exact Or.inl ⟨0, h⟩
  | ok st =>
    rw [hs] at h
    simp only [] at h
    by_cases hsched : st = "Scheduled for Creation"
    · rw [if_pos hsched] at h
      cases hw : (waitForScheduledIndexCreation env req 1 fuel).2 with
      | error e =>
        rw [hw] at h
        simp only [] at h
        simp only [List.mem_append, List.mem_cons, List.not_mem_nil, or_false] at h
        rcases h with (h | h) | h
        · exact Or.inl ⟨0, h⟩
        · exact Or.inr ⟨_, h⟩
        · exact Or.inl (waitFor_events env req fuel 1 ev h)
      | ok st2 =>
        rw [hw] at h
        simp only [] at h
        simp only [List.mem_append, List.mem_cons, List.not_mem_nil, or_false] at h
        rcases h with (h | h) | h
        · exact Or.inl ⟨0, h⟩
        · exact Or.inr ⟨_, h⟩
        · exact Or.inl (waitFor_events env req fuel 1 ev h)
    · rw [if_neg hsched] at h
      simp at h
      rcases h with h | h
      · exact Or.inl ⟨0, h⟩
      · exact Or.inr ⟨_, h⟩

/-- Every event emitted by the index loop is a status query for one of the
requested names, or a progress message. -/
theorem runIndexes_events (env : Env) (fuel : Nat) (data : BuildIndexActionModel)
    (scope collection : String) :
    ∀ ns ev, ev ∈ (runIndexes env fuel data scope collection ns).1 →
      (∃ name ∈ ns, ∃ j, ev = Event.getStatusCall (mkStatusReq data scope collection name) j) ∨
        ∃ m, ev = Event.progress m := by
  intro ns
  induction ns with
  | nil =>
    intro ev h
    simp [runIndexes] at h
  | cons indexName rest ih =>
    intro ev h
    unfold runIndexes at h
    simp only [] at h
    cases hp : (processOne env fuel (mkStatusReq data scope collection indexName)).2 with
    | error e =>
      rw [hp] at h
      simp only [] at h
      rcases processOne_events env fuel _ ev h with ⟨j, hj⟩ | hm
      · exact Or.inl ⟨indexName, List.mem_cons_self _ _, j, hj⟩
      · exact Or.inr hm
    | ok st =>
      rw [hp] at h
      simp only [] at h
      cases hr : (runIndexes env fuel data scope collection rest).2 with
      | error e =>
        rw [hr] at h
        simp only [] at h
        simp only [List.mem_append] at h
        rcases h with h | h
        · rcases processOne_events env fuel _ ev h with ⟨j, hj⟩ | hm
          · exact Or.inl ⟨indexName, List.mem_cons_self _ _, j, hj⟩
          · exact Or.inr hm
        · rcases ih ev h with ⟨name, hmem, j, hj⟩ | hm
          · exact Or.inl ⟨name, List.mem_cons_of_mem _ hmem, j, hj⟩
          · exact Or.inr hm
      | ok batch =>
        rw [hr] at h
        simp only [] at h
        simp only [List.mem_append] at h
        rcases h with h | h
        · rcases processOne_events env fuel _ ev h with ⟨j, hj⟩ | hm
          · exact Or.inl ⟨indexName, List.mem_cons_self _ _, j, hj⟩
          · exact Or.inr hm
        · rcases ih ev h with ⟨name, hmem, j, hj⟩ | hm
          · exact Or.inl ⟨name, List.mem_cons_of_mem _ hmem, j, hj⟩
          · exact Or.inr hm

/-- The index loop never issues a build call. -/
theorem runIndexes_buildCalls (env : Env) (fuel : Nat) (data : BuildIndexActionModel)
    (scope collection : String) (ns : List String) :
    buildCalls (runIndexes env fuel data scope collection ns).1 = [] := by
  rw [buildCalls, List.filterMap_eq_nil_iff]
  intro ev hev
  rcases runIndexes_events env fuel data scope collection ns ev hev with ⟨_, _, _, hj⟩ | ⟨m, hm⟩
  · subst hj; rfl
  · subst hm; rfl

/-- `buildCalls` distributes over trace concatenation. -/
theorem buildCalls_append (xs ys : List Event) :
    buildCalls (xs ++ ys) = buildCalls xs ++ buildCalls ys := by
  simp [buildCalls]

/-- When the loop aborts with a diagnostic, `Invoke` returns the loop trace
and that diagnostic unchanged. -/
theorem Invoke_of_run_error (env : Env) (fuel : Nat) (data : BuildIndexActionModel)
    (e : String × String)
    (hr : (runIndexes env fuel data (effectiveScope data) (effectiveCollection data)
        data.IndexNames).2 = .error e) :
    Invoke env fuel data =
      ((runIndexes env fuel data (effectiveScope data) (effectiveCollection data)
        data.IndexNames).1, .error e) := by
  unfold Invoke
  simp only []
  rw [hr]

/-- When the loop succeeds with an empty batch, `Invoke` emits the
"No indexes need built" progress event and returns success with an empty
built-list. -/
theorem Invoke_of_run_nil (env : Env) (fuel : Nat) (data : BuildIndexActionModel)
    (hr : (runIndexes env fuel data (effectiveScope data) (effectiveCollection data)
        data.IndexNames).2 = .ok []) :
    Invoke env fuel data =
      ((runIndexes env fuel data (effectiveScope data) (effectiveCollection data)
          data.IndexNames).1 ++ [Event.progress "No indexes need built"], .ok []) := by
  unfold Invoke
  simp only []
  rw [hr]

/-- When the loop succeeds with a non-empty batch, `Invoke` issues exactly
one build call, for exactly that batch. -/
theorem Invoke_buildCalls_of_ok (env : Env) (fuel : Nat) (data : BuildIndexActionModel)
    (b : String) (bs : List String)
    (hr : (runIndexes env fuel data (effectiveScope data) (effectiveCollection data)
        data.IndexNames).2 = .ok (b :: bs)) :
    buildCalls (Invoke env fuel data).1 =
      [mkBuildReq data (effectiveScope data) (effectiveCollection data) (b :: bs)] := by
  unfold Invoke
  simp only []
  rw [hr]
  simp only []
  cases hb : env.buildResult
      (mkBuildReq data (effectiveScope data) (effectiveCollection data) (b :: bs)) with
  | error e =>
    simp only []
    rw [buildCalls_append, runIndexes_buildCalls]
    simp [buildCalls]
  | ok res =>
    simp only []
    rw [buildCalls_append, buildCalls_append, runIndexes_buildCalls]
    simp [buildCalls]

/-- When the loop succeeds with a non-empty batch, the result of `Invoke` is
the batch itself on build success, and the build diagnostic on build failure;
either way the loop trace is a prefix of the invocation trace. -/
theorem Invoke_result_of_ok (env : Env) (fuel : Nat) (data : BuildIndexActionModel)
    (b : String) (bs : List String)
    (hr : (runIndexes env fuel data (effectiveScope data) (effectiveCollection data)
        data.IndexNames).2 = .ok (b :: bs))
    (hb : env.buildResult
        (mkBuildReq data (effectiveScope data) (effectiveCollection data) (b :: bs)) =
      .ok none ∨ ∃ msg, env.buildResult
        (mkBuildReq data (effectiveScope data) (effectiveCollection data) (b :: bs)) =
      .ok (some msg)) :
    (Invoke env fuel data).2 = .ok (b :: bs) := by
  unfold Invoke
  simp only []
  rw [hr]
  simp only []
  rcases hb with hb | ⟨msg, hb⟩ <;> rw [hb]

/-- Every event of a full invocation is an event of the index loop, a
progress message, or the single batched build call. -/
theorem Invoke_events (env : Env) (fuel : Nat) (data : BuildIndexActionModel)
    (ev : Event) (h : ev ∈ (Invoke env fuel data).1) :
    ev ∈ (runIndexes env fuel data (effectiveScope data) (effectiveCollection data)
        data.IndexNames).1 ∨
      (∃ m, ev = Event.progress m) ∨
      ∃ batch, ev = Event.buildCall
        (mkBuildReq data (effectiveScope data) (effectiveCollection data) batch) := by
  unfold Invoke at h
  simp only [] at h
  cases hr : (runIndexes env fuel data (effectiveScope data) (effectiveCollection data)
      data.IndexNames).2 with
  | error e =>
    rw [hr] at h
    simp only [] at h
    exact Or.inl h
  | ok batch =>
    rw [hr] at h
    simp only [] at h
    cases batch with
    | nil =>
      simp only [List.mem_append, List.mem_cons, List.not_mem_nil, or_false] at h
      rcases h with h | h
      · exact Or.inl h
      · exact Or.inr (Or.inl ⟨_, h⟩)
    | cons b bs =>
      cases hb : env.buildResult
          (mkBuildReq data (effectiveScope data) (effectiveCollection data) (b :: bs)) with
      | error e =>
        rw [hb] at h
        simp only [] at h
        simp only [List.mem_append, List.mem_cons, List.not_mem_nil, or_false] at h
        rcases h with h | h | h
        · exact Or.inl h
        · exact Or.inr (Or.inl ⟨_, h⟩)
        · exact Or.inr (Or.inr ⟨_, h⟩)
      | ok res =>
        rw [hb] at h
        simp only [] at h
        simp only [List.mem_append, List.mem_cons, List.not_mem_nil, or_false] at h
        rcases h with (h | h | h) | h
        · exact Or.inl h
        · exact Or.inr (Or.inl ⟨_, h⟩)
        · exact Or.inr (Or.inr ⟨_, h⟩)
        · exact Or.inr (Or.inl ⟨_, h⟩)

/-- Every status query and every build call of an invocation carries the
scope and collection computed once at entry. -/
theorem Invoke_calls_namespace (env : Env) (fuel : Nat) (data : BuildIndexActionModel) :
    (∀ req k, Event.getStatusCall req k ∈ (Invoke env fuel data).1 →
        req.Scope = effectiveScope data ∧ req.Collection = effectiveCollection data) ∧
      ∀ breq, Event.buildCall breq ∈ (Invoke env fuel data).1 →
        breq.Scope = effectiveScope data ∧ breq.Collection = effectiveCollection data := by
  constructor
  · intro req k h
    rcases Invoke_events env fuel data _ h with h | ⟨m, hm⟩ | ⟨batch, hb⟩
    · rcases runIndexes_events env fuel data _ _ _ _ h with ⟨name, _, j, hj⟩ | ⟨m, hm⟩
      · simp only [Event.getStatusCall.injEq] at hj
        rw [hj.1]
        exact ⟨rfl, rfl⟩
      · simp at hm
    · simp at hm
    · simp at hb
  · intro breq h
    rcases Invoke_events env fuel data _ h with h | ⟨m, hm⟩ | ⟨batch, hb⟩
    · rcases runIndexes_events env fuel data _ _ _ _ h with ⟨name, _, j, hj⟩ | ⟨m, hm⟩
      · simp at hj
      · simp at hm
    · simp at hm
    · simp only [Event.buildCall.injEq] at hb
      rw [hb]
      exact ⟨rfl, rfl⟩

/-- Evaluation of one loop iteration when the initial query returns a
non-scheduled status: one query, one progress message, final status as
returned. -/
theorem processOne_of_status (env : Env) (fuel : Nat) (req : IndexBuildStatusRequest)
    (st : String) (hs : env.statusOf req 0 = .ok st)
    (hn : st ≠ "Scheduled for Creation") :
    processOne env fuel req =
      ([.getStatusCall req 0,
        .progress ("Index: " ++ req.IndexName ++ ", Status: " ++ st)], .ok st) := by
  unfold processOne
  rw [hs]
  simp only []
  rw [if_neg hn]

/-- Evaluation of one loop iteration when the initial query fails: one query
and the abort diagnostic of the source. -/
theorem processOne_of_error (env : Env) (fuel : Nat) (req : IndexBuildStatusRequest)
    (e : String) (hs : env.statusOf req 0 = .error e) :
    processOne env fuel req =
      ([.getStatusCall req 0],
       .error ("Get Index Build Status Failed",
         "Cannot get index build status for index " ++ req.IndexName ++
           ".  Error: " ++ e ++ "\n")) := by
  unfold processOne
  rw [hs]

/-- Evaluation of one loop iteration when the initial query reports the
scheduled state and the first re-poll of the wait reports a terminal status:
the wait is entered, re-polls once, and the final status is the post-wait
one. -/
theorem processOne_of_sched (env : Env) (f : Nat) (req : IndexBuildStatusRequest)
    (st2 : String)
    (hs0 : env.statusOf req 0 = .ok "Scheduled for Creation")
    (hs1 : env.statusOf req 1 = .ok st2)
    (hn : st2 ≠ "Scheduled for Creation") :
    processOne env (f + 1) req =
      ([.getStatusCall req 0,
        .progress ("Index: " ++ req.IndexName ++ ", Status: " ++ "Scheduled for Creation"),
        .getStatusCall req 1], .ok st2) := by
  have hw : waitForScheduledIndexCreation env req 1 (f + 1) =
      ([.getStatusCall req 1], .ok st2) := by
    unfold waitForScheduledIndexCreation
    rw [hs1]
    simp only []
    rw [if_neg hn]
  unfold processOne
  rw [hs0]
  simp only []
  rw [hw]
  simp

/-- When every index reports "Created" on its first query, the loop succeeds
with the full input list as the batch, in input order. -/
theorem runIndexes_all_created (env : Env) (fuel : Nat) (data : BuildIndexActionModel)
    (scope collection : String) :
    ∀ ns, (∀ name ∈ ns,
        env.statusOf (mkStatusReq data scope collection name) 0 = .ok "Created") →
      (runIndexes env fuel data scope collection ns).2 = .ok ns := by
  intro ns
  induction ns with
  | nil =>
    intro _
    simp [runIndexes]
  | cons name rest ih =>
    intro h
    have h0 := h name (List.mem_cons_self _ _)
    have hp := processOne_of_status env fuel (mkStatusReq data scope collection name)
      "Created" h0 (by decide)
    have hr := ih (fun n hn => h n (List.mem_cons_of_mem _ hn))
    unfold runIndexes
    simp only []
    rw [hp]
    simp only []
    cases hrr : (runIndexes env fuel data scope collection rest).2 with
    | error e =>
      rw [hrr] at hr
      exact absurd hr (by simp)
    | ok batch =>
      rw [hrr] at hr
      injection hr with hr
      simp only []
      rw [hr]
      simp

/-- When every index reports a status that is neither "Created" nor the
scheduled state, the loop succeeds with an empty batch. -/
theorem runIndexes_none_buildable (env : Env) (fuel : Nat) (data : BuildIndexActionModel)
    (scope collection : String) :
    ∀ ns, (∀ name ∈ ns, ∃ st,
        env.statusOf (mkStatusReq data scope collection name) 0 = .ok st ∧
          st ≠ "Created" ∧ st ≠ "Scheduled for Creation") →
      (runIndexes env fuel data scope collection ns).2 = .ok [] := by
  intro ns
  induction ns with
  | nil =>
    intro _
    simp [runIndexes]
  | cons name rest ih =>
    intro h
    rcases h name (List.mem_cons_self _ _) with ⟨st, hs, hc, hsc⟩
    have hp := processOne_of_status env fuel (mkStatusReq data scope collection name)
      st hs hsc
    have hr := ih (fun n hn => h n (List.mem_cons_of_mem _ hn))
    unfold runIndexes
    simp only []
    rw [hp]
    simp only []
    cases hrr : (runIndexes env fuel data scope collection rest).2 with
    | error e =>
      rw [hrr] at hr
      exact absurd hr (by simp)
    | ok batch =>
      rw [hrr] at hr
      injection hr with hr
      simp only []
      rw [if_neg hc, hr]

/-- When every index reports the scheduled state first and "Created" on the
first re-poll, the loop re-polls each index once inside the wait and the
whole input list is the batch. -/
theorem runIndexes_sched_created (env : Env) (f : Nat) (data : BuildIndexActionModel)
    (scope collection : String) :
    ∀ ns, (∀ name ∈ ns,
        env.statusOf (mkStatusReq data scope collection name) 0 = .ok "Scheduled for Creation" ∧
          env.statusOf (mkStatusReq data scope collection name) 1 = .ok "Created") →
      (runIndexes env (f + 1) data scope collection ns).2 = .ok ns ∧
        ∀ name ∈ ns, Event.getStatusCall (mkStatusReq data scope collection name) 1 ∈
          (runIndexes env (f + 1) data scope collection ns).1 := by
  intro ns
  induction ns with
  | nil =>
    intro _
    constructor
    · simp [runIndexes]
    · intro name hname
      simp at hname
  | cons name rest ih =>
    intro h
    rcases h name (List.mem_cons_self _ _) with ⟨hs0, hs1⟩
    have hp := processOne_of_sched env f (mkStatusReq data scope collection name)
      "Created" hs0 hs1 (by decide)
    rcases ih (fun n hn => h n (List.mem_cons_of_mem _ hn)) with ⟨hr, hmem⟩
    unfold runIndexes
    simp only []
    rw [hp]
    simp only []
    cases hrr : (runIndexes env (f + 1) data scope collection rest).2 with
    | error e =>
      rw [hrr] at hr
      exact absurd hr (by simp)
    | ok batch =>
      rw [hrr] at hr
      injection hr with hr
      simp only []
      constructor
      · rw [hr]
        simp
      · intro n hn
        simp only [List.mem_append, List.mem_cons, List.not_mem_nil, or_false]
        rcases List.mem_cons.mp hn with hn | hn
        · subst hn
          left
          right
          right
          rfl
        · right
          exact hmem n hn

/-- When a query fails for one index and every earlier iteration completed,
the loop aborts with the source diagnostic naming that index, and every
status query it issued targets an earlier index or the failing one. -/
theorem runIndexes_failure (env : Env) (fuel : Nat) (data : BuildIndexActionModel)
    (scope collection bad e : String) (ns2 : List String)
    (hbad : env.statusOf (mkStatusReq data scope collection bad) 0 = .error e) :
    ∀ ns1, (∀ name ∈ ns1, ∃ evs st,
        processOne env fuel (mkStatusReq data scope collection name) = (evs, .ok st)) →
      (runIndexes env fuel data scope collection (ns1 ++ bad :: ns2)).2 =
          .error ("Get Index Build Status Failed",
            "Cannot get index build status for index " ++ bad ++ ".  Error: " ++ e ++ "\n") ∧
        ∀ req k, Event.getStatusCall req k ∈
            (runIndexes env fuel data scope collection (ns1 ++ bad :: ns2)).1 →
          req.IndexName ∈ ns1 ∨ req.IndexName = bad := by
  intro ns1
  induction ns1 with
  | nil =>
    intro _
    have hp := processOne_of_error env fuel (mkStatusReq data scope collection bad) e hbad
    constructor
    · show (runIndexes env fuel data scope collection (bad :: ns2)).2 = _
      unfold runIndexes
      simp only []
      rw [hp]
      simp [mkStatusReq]
    · intro req k hmem
      show req.IndexName ∈ ([] : List String) ∨ req.IndexName = bad
      right
      revert hmem
      show Event.getStatusCall req k ∈ (runIndexes env fuel data scope collection (bad :: ns2)).1 → _
      unfold runIndexes
      simp only []
      rw [hp]
      simp only []
      intro hmem
      simp at hmem
      simp [hmem.1, mkStatusReq]
  | cons a ns1' ih =>
    intro h
    rcases h a (List.mem_cons_self _ _) with ⟨evs, st, hp⟩
    rcases ih (fun n hn => h n (List.mem_cons_of_mem _ hn)) with ⟨hr, hq⟩
    constructor
    · show (runIndexes env fuel data scope collection ((a :: ns1') ++ bad :: ns2)).2 = _
      rw [List.cons_append]
      unfold runIndexes
      simp only []
      rw [hp]
      simp only []
      rw [hr]
    · intro req k hmem
      revert hmem
      show Event.getStatusCall req k ∈
        (runIndexes env fuel data scope collection ((a :: ns1') ++ bad :: ns2)).1 → _
      rw [List.cons_append]
      unfold runIndexes
      simp only []
      rw [hp]
      simp only []
      rw [hr]
      simp only []
      simp only [List.mem_append]
      intro hmem
      rcases hmem with hmem | hmem
      · have := processOne_events env fuel (mkStatusReq data scope collection a)
          _ (by rw [hp]; exact hmem)
        rcases this with ⟨j, hj⟩ | ⟨m, hm⟩
        · simp only [Event.getStatusCall.injEq] at hj
          left
          rw [hj.1]
          exact List.mem_cons_self _ _
        · simp at hm
      · rcases hq req k hmem with hql | hqr
        · exact Or.inl (List.mem_cons_of_mem _ hql)
        · exact Or.inr hqr

/-- The loop trace is a prefix of the invocation trace. -/
theorem Invoke_trace_extension (env : Env) (fuel : Nat) (data : BuildIndexActionModel) :
    ∃ tail, (Invoke env fuel data).1 =
      (runIndexes env fuel data (effectiveScope data) (effectiveCollection data)
        data.IndexNames).1 ++ tail := by
  unfold Invoke
  simp only []
  cases hr : (runIndexes env fuel data (effectiveScope data) (effectiveCollection data)
      data.IndexNames).2 with
  | error e =>
    simp only []
    exact ⟨[], by simp⟩
  | ok batch =>
    simp only []
    cases batch with
    | nil =>
      exact ⟨[Event.progress "No indexes need built"], rfl⟩
    | cons b bs =>
      simp only []
      cases hb : env.buildResult
          (mkBuildReq data (effectiveScope data) (effectiveCollection data) (b :: bs)) with
      | error e =>
        simp only []
        exact ⟨[Event.progress ("The following indexes need built: " ++ goSliceFormat (b :: bs)),
          Event.buildCall (mkBuildReq data (effectiveScope data) (effectiveCollection data)
            (b :: bs))], rfl⟩
      | ok res =>
        simp only []
        refine ⟨[Event.progress ("The following indexes need built: " ++ goSliceFormat (b :: bs)),
          Event.buildCall (mkBuildReq data (effectiveScope data) (effectiveCollection data)
            (b :: bs)),
          Event.progress "finished action invocation, Indexes will be built in the background."],
          ?_⟩
        simp

/-! Claim theorems -/

/-- C1: for every non-empty list of requested index names whose every queried
status is "Created", the workflow issues exactly one build call, whose
index-name list is exactly the requested list in input order, and no other
build call. -/
theorem invoke_all_created_single_build (env : Env) (fuel : Nat)
    (data : BuildIndexActionModel) (hne : data.IndexNames ≠ [])
    (h : ∀ name ∈ data.IndexNames,
        env.statusOf (mkStatusReq data (effectiveScope data) (effectiveCollection data) name) 0 =
          .ok "Created") :
    buildCalls (Invoke env fuel data).1 =
      [mkBuildReq data (effectiveScope data) (effectiveCollection data) data.IndexNames] := by
  have hr := runIndexes_all_created env fuel data (effectiveScope data)
    (effectiveCollection data) data.IndexNames h
  obtain ⟨b, bs, hns⟩ : ∃ b bs, data.IndexNames = b :: bs := by
    cases hx : data.IndexNames with
    | nil => exact absurd hx hne
    | cons x xs => exact ⟨x, xs, rfl⟩
  have hr2 : (runIndexes env fuel data (effectiveScope data) (effectiveCollection data)
      data.IndexNames).2 = .ok (b :: bs) := by rw [hr, hns]
  rw [hns]
  exact Invoke_buildCalls_of_ok env fuel data b bs hr2

/-- C1 witness: two indexes both reporting "Created" produce the single
batched build call for both, in order. -/
theorem invoke_all_created_single_build_witness :
    buildCalls (Invoke envCreated 1 dataTwo).1 =
      [mkBuildReq dataTwo (effectiveScope dataTwo) (effectiveCollection dataTwo)
        ["idx1", "idx2"]] :=
  invoke_all_created_single_build envCreated 1 dataTwo (by decide) (fun _ _ => rfl)

/-- C2: for every non-empty list of indexes that all report the scheduled
state on the first query and "Created" on the first re-poll of the wait, the
workflow re-polls each index (the wait is invoked) and includes every index
in the single batched build call: inclusion is decided on the post-wait
status. -/
theorem invoke_scheduled_then_created_included (env : Env) (f : Nat)
    (data : BuildIndexActionModel) (hne : data.IndexNames ≠ [])
    (h : ∀ name ∈ data.IndexNames,
        env.statusOf (mkStatusReq data (effectiveScope data) (effectiveCollection data) name) 0 =
            .ok "Scheduled for Creation" ∧
          env.statusOf (mkStatusReq data (effectiveScope data) (effectiveCollection data) name) 1 =
            .ok "Created") :
    (∀ name ∈ data.IndexNames,
        Event.getStatusCall
            (mkStatusReq data (effectiveScope data) (effectiveCollection data) name) 1 ∈
          (Invoke env (f + 1) data).1) ∧
      buildCalls (Invoke env (f + 1) data).1 =
        [mkBuildReq data (effectiveScope data) (effectiveCollection data) data.IndexNames] := by
  obtain ⟨hr, hmem⟩ := runIndexes_sched_created env f data (effectiveScope data)
    (effectiveCollection data) data.IndexNames h
  obtain ⟨b, bs, hns⟩ : ∃ b bs, data.IndexNames = b :: bs := by
    cases hx : data.IndexNames with
    | nil => exact absurd hx hne
    | cons x xs => exact ⟨x, xs, rfl⟩
  constructor
  · intro name hname
    obtain ⟨tail, htr⟩ := Invoke_trace_extension env (f + 1) data
    rw [htr]
    exact List.mem_append_left _ (hmem name hname)
  · have hr2 : (runIndexes env (f + 1) data (effectiveScope data) (effectiveCollection data)
        data.IndexNames).2 = .ok (b :: bs) := by rw [hr, hns]
    rw [hns]
    exact Invoke_buildCalls_of_ok env (f + 1) data b bs hr2

/-- C2 witness: an index that transitions from the scheduled state to
"Created" after exactly one re-poll is re-polled and included in the batch. -/
theorem invoke_scheduled_then_created_included_witness :
    Event.getStatusCall
        (mkStatusReq dataTwo (effectiveScope dataTwo) (effectiveCollection dataTwo) "idx1") 1 ∈
      (Invoke envSched 1 dataTwo).1 ∧
    buildCalls (Invoke envSched 1 dataTwo).1 =
      [mkBuildReq dataTwo (effectiveScope dataTwo) (effectiveCollection dataTwo)
        ["idx1", "idx2"]] := by
  have h := invoke_scheduled_then_created_included envSched 0 dataTwo (by decide)
    (fun _ _ => ⟨rfl, rfl⟩)
  exact ⟨h.1 "idx1" (by decide), h.2⟩

/-- C3: if the status query for one index fails while every earlier iteration
completed, the workflow returns the fatal diagnostic naming that index,
performs no build call, and never queries any index after the failing one. -/
theorem invoke_status_failure_aborts (env : Env) (fuel : Nat)
    (data : BuildIndexActionModel) (ns1 ns2 : List String) (bad e : String)
    (hns : data.IndexNames = ns1 ++ bad :: ns2)
    (hok : ∀ name ∈ ns1, ∃ evs st,
        processOne env fuel
            (mkStatusReq data (effectiveScope data) (effectiveCollection data) name) =
          (evs, .ok st))
    (hbad : env.statusOf
        (mkStatusReq data (effectiveScope data) (effectiveCollection data) bad) 0 =
      .error e) :
    (Invoke env fuel data).2 =
        .error ("Get Index Build Status Failed",
          "Cannot get index build status for index " ++ bad ++ ".  Error: " ++ e ++ "\n") ∧
      buildCalls (Invoke env fuel data).1 = [] ∧
      ∀ req k, Event.getStatusCall req k ∈ (Invoke env fuel data).1 →
        req.IndexName ∈ ns1 ∨ req.IndexName = bad := by
  obtain ⟨hr, hq⟩ := runIndexes_failure env fuel data (effectiveScope data)
    (effectiveCollection data) bad e ns2 hbad ns1 hok
  rw [← hns] at hr hq
  have hInv := Invoke_of_run_error env fuel data _ hr
  refine ⟨?_, ?_, ?_⟩
  · rw [hInv]
  · rw [hInv]
    exact runIndexes_buildCalls env fuel data (effectiveScope data)
      (effectiveCollection data) data.IndexNames
  · intro req k hk
    rw [hInv] at hk
    exact hq req k hk

/-- C3 witness: with the middle of three indexes failing its query, the
invocation aborts with the diagnostic naming "bad", issues no build call, and
only "good" and "bad" are ever queried. -/
theorem invoke_status_failure_aborts_witness :
    (Invoke envFailBad 1 dataThree).2 =
        .error ("Get Index Build Status Failed",
          "Cannot get index build status for index " ++ "bad" ++ ".  Error: " ++
            "boom" ++ "\n") ∧
      buildCalls (Invoke envFailBad 1 dataThree).1 = [] ∧
      ∀ req k, Event.getStatusCall req k ∈ (Invoke envFailBad 1 dataThree).1 →
        req.IndexName ∈ ["good"] ∨ req.IndexName = "bad" := by
  refine invoke_status_failure_aborts envFailBad 1 dataThree ["good"] ["later"]
    "bad" "boom" rfl ?_ rfl
  intro name hname
  have hn : name = "good" := by
    simpa using hname
  subst hn
  exact ⟨_, _, rfl⟩

/-- C4 counterexample: invoking the workflow with an empty index-name list
does not fail: it performs no status query and no build call, emits only the
"No indexes need built" progress event, and returns success — there is no
ConfigurationError path in the workflow. -/
theorem invoke_empty_list_counterexample :
    Invoke envNever 1 dataEmptyNames =
        ([Event.progress "No indexes need built"], Except.ok []) ∧
      (Invoke envNever 1 dataEmptyNames).2.isOk = true :=
  ⟨rfl, rfl⟩

/-- C4 (amended): invoking the workflow with an empty index-name list
performs no status query and no build call, emits the "No indexes need
built" progress event, and returns success with an empty built-list. -/
theorem invoke_empty_list_success (env : Env) (fuel : Nat)
    (data : BuildIndexActionModel) (h : data.IndexNames = []) :
    Invoke env fuel data = ([Event.progress "No indexes need built"], .ok []) := by
  have hr : (runIndexes env fuel data (effectiveScope data) (effectiveCollection data)
      data.IndexNames).2 = .ok [] := by
    rw [h]
    simp [runIndexes]
  have h2 := Invoke_of_run_nil env fuel data hr
  rw [h2, h]
  simp [runIndexes]

/-- C4 witness: the amended behaviour on concrete empty-list data. -/
theorem invoke_empty_list_success_witness :
    Invoke envCreated 0 dataEmptyNames =
      ([Event.progress "No indexes need built"], Except.ok []) :=
  invoke_empty_list_success envCreated 0 dataEmptyNames rfl

/-- C5: when every requested index reports a status that is neither "Created"
nor the scheduled state, the workflow issues zero build calls, emits the
"No indexes need built" progress event, and returns success with an empty
built-list. -/
theorem invoke_none_buildable_no_build (env : Env) (fuel : Nat)
    (data : BuildIndexActionModel)
    (h : ∀ name ∈ data.IndexNames, ∃ st,
        env.statusOf (mkStatusReq data (effectiveScope data) (effectiveCollection data) name) 0 =
            .ok st ∧
          st ≠ "Created" ∧ st ≠ "Scheduled for Creation") :
    buildCalls (Invoke env fuel data).1 = [] ∧
      (Invoke env fuel data).2 = .ok [] ∧
      Event.progress "No indexes need built" ∈ (Invoke env fuel data).1 := by
  have hr := runIndexes_none_buildable env fuel data (effectiveScope data)
    (effectiveCollection data) data.IndexNames h
  have h2 := Invoke_of_run_nil env fuel data hr
  refine ⟨?_, ?_, ?_⟩
  · rw [h2]
    show buildCalls ((runIndexes env fuel data (effectiveScope data)
      (effectiveCollection data) data.IndexNames).1 ++
        [Event.progress "No indexes need built"]) = []
    rw [buildCalls_append, runIndexes_buildCalls]
    simp [buildCalls]
  · rw [h2]
  · rw [h2]
    exact List.mem_append_right _ (by simp)

/-- C5 witness: two indexes both reporting "Building" produce no build call
and an empty successful result. -/
theorem invoke_none_buildable_no_build_witness :
    buildCalls (Invoke envBuilding 1 dataTwo).1 = [] ∧
      (Invoke envBuilding 1 dataTwo).2 = .ok [] ∧
      Event.progress "No indexes need built" ∈ (Invoke envBuilding 1 dataTwo).1 :=
  invoke_none_buildable_no_build envBuilding 1 dataTwo
    (fun _ _ => ⟨"Building", rfl, by decide, by decide⟩)

/-- C6: the generated build statement is the Sprintf rendering of the
source — bucket, scope and collection backticked in that order, index names
joined by comma-space — and on bucket b, scope s, collection c with indexes
idx1 and idx2 it is exactly the expected statement. -/
theorem buildStatement_round_trip :
    (∀ req : IndexBuildRequest,
        buildStatement req =
          "BUILD INDEX ON `" ++ req.Bucket ++ "`.`" ++ req.Scope ++ "`.`" ++
            req.Collection ++ "`(" ++ String.intercalate ", " req.IndexNames ++ ")") ∧
      buildStatement
          { OrganizationId := "org", ProjectId := "proj", ClusterId := "cluster",
            Bucket := "b", Scope := "s", Collection := "c",
            IndexNames := ["idx1", "idx2"] } =
        "BUILD INDEX ON `b`.`s`.`c`(idx1, idx2)" :=
  ⟨fun _ => rfl, by decide⟩

/-- C7: when scope and collection are unset (null), every status query of the
invocation carries the literal "_default" token for both (including in its
query-parameter map), and any build call — hence the build statement — uses
"_default" for both; the defaulting is computed once at entry, so every call
of the invocation agrees. -/
theorem invoke_null_scope_collection_defaults (env : Env) (fuel : Nat)
    (data : BuildIndexActionModel) (hsc : data.ScopeName = none)
    (hcc : data.CollectionName = none) :
    (∀ req k, Event.getStatusCall req k ∈ (Invoke env fuel data).1 →
        req.Scope = "_default" ∧ req.Collection = "_default" ∧
          ("scope", "_default") ∈ statusQueryParams req ∧
          ("collection", "_default") ∈ statusQueryParams req) ∧
      ∀ breq, Event.buildCall breq ∈ (Invoke env fuel data).1 →
        breq.Scope = "_default" ∧ breq.Collection = "_default" ∧
          buildStatement breq =
            "BUILD INDEX ON `" ++ breq.Bucket ++ "`.`" ++ "_default" ++ "`.`" ++
              "_default" ++ "`(" ++ String.intercalate ", " breq.IndexNames ++ ")" := by
  have hs : effectiveScope data = "_default" := by simp [effectiveScope, hsc]
  have hc : effectiveCollection data = "_default" := by simp [effectiveCollection, hcc]
  obtain ⟨hq, hb⟩ := Invoke_calls_namespace env fuel data
  constructor
  · intro req k hk
    obtain ⟨h1, h2⟩ := hq req k hk
    rw [hs] at h1
    rw [hc] at h2
    exact ⟨h1, h2, by simp [statusQueryParams, h1], by simp [statusQueryParams, h2]⟩
  · intro breq hk
    obtain ⟨h1, h2⟩ := hb breq hk
    rw [hs] at h1
    rw [hc] at h2
    refine ⟨h1, h2, ?_⟩
    simp [buildStatement, h1, h2]

/-- C7 witness: with unset scope and collection, the concrete queried request
carries "_default" in both positions of its parameter map. -/
theorem invoke_null_scope_collection_defaults_witness :
    (mkStatusReq dataTwo (effectiveScope dataTwo) (effectiveCollection dataTwo)
        "idx1").Scope = "_default" ∧
      ("scope", "_default") ∈ statusQueryParams
        (mkStatusReq dataTwo (effectiveScope dataTwo) (effectiveCollection dataTwo) "idx1") := by
  have h := (invoke_null_scope_collection_defaults envCreated 1 dataTwo rfl rfl).1
    (mkStatusReq dataTwo (effectiveScope dataTwo) (effectiveCollection dataTwo) "idx1") 0
    (by decide)
  exact ⟨h.1, h.2.2.1⟩

/-- C8: every non-2xx response yields a non-nil error from the client, and
the decoded error payload renders as "code: message" when both fields are
present, as the one present field when only one is, and as the generic
fallback when neither is. -/
theorem client_error_rendering :
    (∀ (sc : Nat) (decoded : Option ApiError) (body : String),
        sc < 200 ∨ 300 ≤ sc → (doErrorOutcome sc decoded body).isSome = true) ∧
      (∀ c m, c ≠ "" → m ≠ "" → ApiError.Error ⟨c, m⟩ = c ++ ": " ++ m) ∧
      (∀ m, m ≠ "" → ApiError.Error ⟨"", m⟩ = m) ∧
      (∀ c, c ≠ "" → ApiError.Error ⟨c, ""⟩ = c) ∧
      ApiError.Error ⟨"", ""⟩ = "capella api error" := by
  refine ⟨?_, ?_, ?_, ?_, ?_⟩
  · intro sc decoded body h
    unfold doErrorOutcome
    rw [if_pos h]
    cases decoded with
    | none => rfl
    | some ae =>
      simp only []
      by_cases hae : ae.Code ≠ "" ∨ ae.Message ≠ ""
      · rw [if_pos hae]
        rfl
      · rw [if_neg hae]
        rfl
  · intro c m hc hm
    simp [ApiError.Error, hc, hm]
  · intro m hm
    simp [ApiError.Error, hm]
  · intro c hc
    simp [ApiError.Error, hc]
  · rfl

/-- C8 witness: a 404 with a decoded payload yields a non-nil error, and the
payload with code e1 and message bad renders with both parts. -/
theorem client_error_rendering_witness :
    (doErrorOutcome 404 (some { Code := "e1", Message := "bad" }) "").isSome = true ∧
      ApiError.Error { Code := "e1", Message := "bad" } = "e1" ++ ": " ++ "bad" ∧
      ApiError.Error { Code := "", Message := "bad" } = "bad" ∧
      ApiError.Error { Code := "e1", Message := "" } = "e1" :=
  ⟨client_error_rendering.1 404 (some { Code := "e1", Message := "bad" }) "" (by decide),
   client_error_rendering.2.1 "e1" "bad" (by decide) (by decide),
   client_error_rendering.2.2.1 "bad" (by decide),
   client_error_rendering.2.2.2.1 "e1" (by decide)⟩

/-- The Authorization header set for a key is the value just written. -/
theorem headerGet_headerSet (hs : List (String × String)) (k v : String) :
    headerGet (headerSet hs k v) k = some v := by
  rw [headerGet, headerSet, List.find?_append]
  have hnone : (hs.filter fun p => p.1 != k).find? (fun p => p.1 == k) = none := by
    rw [List.find?_eq_none]
    intro p hp
    have hne := (List.mem_filter.mp hp).2
    simp only [bne_iff_ne, ne_eq] at hne
    simp [hne]
  rw [hnone]
  simp

/-- C9: a bearer authenticator with token "abc123" sets the Authorization
header to exactly "Bearer abc123" on any request, and the empty-token
authenticator changes nothing and returns no error. -/
theorem bearer_token_auth_apply :
    (∀ hs : List (String × String),
        BearerTokenAuth.Apply { Token := "abc123" } hs =
            .ok (headerSet hs "Authorization" "Bearer abc123") ∧
          headerGet (headerSet hs "Authorization" "Bearer abc123") "Authorization" =
            some "Bearer abc123") ∧
      ∀ hs : List (String × String),
        BearerTokenAuth.Apply { Token := "" } hs = .ok hs := by
  refine ⟨fun hs => ⟨rfl, headerGet_headerSet hs "Authorization" "Bearer abc123"⟩,
    fun hs => rfl⟩

/-- C10: an explicitly supplied empty-string scope or collection is passed
through verbatim into every status query and the build statement (empty
backticked segments), and status classification is exact and case-sensitive:
any status other than the exact strings "Created" and
"Scheduled for Creation" — including different casing — excludes the index
from the batch without error. -/
theorem invoke_passthrough_and_exact_status :
    (∀ (env : Env) (fuel : Nat) (data : BuildIndexActionModel),
        data.ScopeName = some "" → data.CollectionName = some "" →
          (∀ req k, Event.getStatusCall req k ∈ (Invoke env fuel data).1 →
              req.Scope = "" ∧ req.Collection = "") ∧
            ∀ breq, Event.buildCall breq ∈ (Invoke env fuel data).1 →
              breq.Scope = "" ∧ breq.Collection = "" ∧
                buildStatement breq =
                  "BUILD INDEX ON `" ++ breq.Bucket ++ "`.`" ++ "" ++ "`.`" ++
                    "" ++ "`(" ++ String.intercalate ", " breq.IndexNames ++ ")") ∧
      ∀ (env : Env) (fuel : Nat) (data : BuildIndexActionModel) (name st : String),
        data.IndexNames = [name] →
        env.statusOf (mkStatusReq data (effectiveScope data) (effectiveCollection data) name) 0 =
          .ok st →
        st ≠ "Created" → st ≠ "Scheduled for Creation" →
        (Invoke env fuel data).2 = .ok [] ∧ buildCalls (Invoke env fuel data).1 = [] := by
  constructor
  · intro env fuel data hsc hcc
    have hs : effectiveScope data = "" := by simp [effectiveScope, hsc]
    have hc : effectiveCollection data = "" := by simp [effectiveCollection, hcc]
    obtain ⟨hq, hb⟩ := Invoke_calls_namespace env fuel data
    constructor
    · intro req k hk
      obtain ⟨h1, h2⟩ := hq req k hk
      rw [hs] at h1
      rw [hc] at h2
      exact ⟨h1, h2⟩
    · intro breq hk
      obtain ⟨h1, h2⟩ := hb breq hk
      rw [hs] at h1
      rw [hc] at h2
      refine ⟨h1, h2, ?_⟩
      simp [buildStatement, h1, h2]
  · intro env fuel data name st hns hst hc hsc
    have hall : ∀ n ∈ data.IndexNames, ∃ st',
        env.statusOf (mkStatusReq data (effectiveScope data) (effectiveCollection data) n) 0 =
            .ok st' ∧
          st' ≠ "Created" ∧ st' ≠ "Scheduled for Creation" := by
      intro n hn
      rw [hns] at hn
      have hn' : n = name := by simpa using hn
      subst hn'
      exact ⟨st, hst, hc, hsc⟩
    have hr := runIndexes_none_buildable env fuel data (effectiveScope data)
      (effectiveCollection data) data.IndexNames hall
    have h2 := Invoke_of_run_nil env fuel data hr
    refine ⟨by rw [h2], ?_⟩
    rw [h2]
    show buildCalls ((runIndexes env fuel data (effectiveScope data)
      (effectiveCollection data) data.IndexNames).1 ++
        [Event.progress "No indexes need built"]) = []
    rw [buildCalls_append, runIndexes_buildCalls]
    simp [buildCalls]

/-- C10 witness: the empty-string scope and collection of the concrete data
are passed through verbatim to the request actually queried, and the
lowercase status "created" leaves the batch empty with a successful result. -/
theorem invoke_passthrough_and_exact_status_witness :
    ((mkStatusReq dataPassthrough (effectiveScope dataPassthrough)
          (effectiveCollection dataPassthrough) "idx1").Scope = "" ∧
        (mkStatusReq dataPassthrough (effectiveScope dataPassthrough)
          (effectiveCollection dataPassthrough) "idx1").Collection = "") ∧
      (Invoke envLower 1 dataSingle).2 = .ok [] ∧
        buildCalls (Invoke envLower 1 dataSingle).1 = [] := by
  constructor
  · exact (invoke_passthrough_and_exact_status.1 envCreated 1 dataPassthrough rfl rfl).1
      (mkStatusReq dataPassthrough (effectiveScope dataPassthrough)
        (effectiveCollection dataPassthrough) "idx1") 0 (by decide)
  · exact invoke_passthrough_and_exact_status.2 envLower 1 dataSingle "idx1" "created"
      rfl rfl (by decide) (by decide)
